import Mathlib

/-!
Verification of the CallPulse weekly aggregation and comparison engine
(`generateWeeklyReport`, `getWeeklyReports`, `getSDRTrend` in the reports
service) against its specification.

The engine is embedded shallowly: the read-only DB tables (`calls`,
`call_analyses`, `coaching_items`) become explicit lists in an environment
record, the `weekly_reports` table becomes an explicit list of stored
reports threaded through the functions, JS objects with string keys become
insertion-ordered association lists, and JS numbers become rationals
(every score in play is a DB `numeric(3,1)` value).  `Math.round` is
round-half-toward-positive-infinity, as in JS.
-/

namespace CallPulse

/-- JS `Math.round` on rationals: round half toward positive infinity
(`Math.round(2.5) = 3`, `Math.round(-2.5) = -2`). -/
def jsRound (x : ℚ) : ℤ := ⌊x + 1 / 2⌋

/-- The engine's one-decimal rounding idiom `Math.round(x * 10) / 10`. -/
def round1 (x : ℚ) : ℚ := (jsRound (x * 10) : ℤ) / 10

/-- One entry of the `DIMENSIONS` constant of `types.ts`. -/
structure Dimension where
  key : String
  label : String
  dbPrefix : String
deriving DecidableEq, Repr

/-- The fixed, ordered enumeration of the six rubric dimensions
(`DIMENSIONS` in `types.ts`). -/
def DIMENSIONS : List Dimension :=
  [ ⟨"opening", "Opening & Hook", "opening"⟩,
    ⟨"discovery", "Discovery & Qualification", "discovery"⟩,
    ⟨"value_prop", "Value Proposition", "value_prop"⟩,
    ⟨"objection", "Objection Handling", "objection"⟩,
    ⟨"closing", "Closing Technique", "closing"⟩,
    ⟨"tone", "Tone & Rapport", "tone"⟩ ]

/-- A row of `call_analyses` (the `CallAnalysis` interface of `types.ts`),
with every score a rational. -/
structure CallAnalysis where
  id : String
  call_id : String
  overall_score : ℚ
  opening_score : ℚ
  opening_justification : String
  opening_quotes : List String
  discovery_score : ℚ
  discovery_justification : String
  discovery_quotes : List String
  value_prop_score : ℚ
  value_prop_justification : String
  value_prop_quotes : List String
  objection_score : ℚ
  objection_justification : String
  objection_quotes : List String
  closing_score : ℚ
  closing_justification : String
  closing_quotes : List String
  tone_score : ℚ
  tone_justification : String
  tone_quotes : List String
  strengths : List String
  weaknesses : List String
  summary : String
  created_at : String
deriving DecidableEq, Repr

/-- The dynamic field access `analysis[dbPrefix + "_score"]` of the
aggregation loop, for the six prefixes that occur in `DIMENSIONS`. -/
def dimScore (a : CallAnalysis) (dbPrefix : String) : ℚ :=
  if dbPrefix = "opening" then a.opening_score
  else if dbPrefix = "discovery" then a.discovery_score
  else if dbPrefix = "value_prop" then a.value_prop_score
  else if dbPrefix = "objection" then a.objection_score
  else if dbPrefix = "closing" then a.closing_score
  else a.tone_score

/-- Per-dimension average: `Math.round((scores.reduce((a,b) => a+b, 0) /
scores.length) * 10) / 10`. -/
def dimAvg (analyses : List CallAnalysis) (dbPrefix : String) : ℚ :=
  round1 ((analyses.map (fun a => dimScore a dbPrefix)).sum / (analyses.length : ℚ))

/-- The `avgScores` object right after the `for (const dim of DIMENSIONS)`
loop: one entry per dimension, in canonical order (JS objects preserve
insertion order). -/
def baseAvgScores (analyses : List CallAnalysis) : List (String × ℚ) :=
  DIMENSIONS.map (fun d => (d.key, dimAvg analyses d.dbPrefix))

/-- The synthetic `overall` value: `Math.round((Object.values(avgScores)
.reduce((a,b) => a+b, 0) / Object.keys(avgScores).length) * 10) / 10`,
computed while `avgScores` holds exactly the six dimension entries. -/
def overallAvg (analyses : List CallAnalysis) : ℚ :=
  round1 (((baseAvgScores analyses).map Prod.snd).sum /
    ((baseAvgScores analyses).length : ℚ))

/-- The finished `avgScores` object: the six dimension entries followed by
the `overall` entry appended by `avgScores.overall = ...`. -/
def avgScoresOf (analyses : List CallAnalysis) : List (String × ℚ) :=
  baseAvgScores analyses ++ [("overall", overallAvg analyses)]

/-- JS property read `m[k]` on an object modelled as an association list:
`undefined` becomes `none`. -/
def jlookup {α : Type} (k : String) (m : List (String × α)) : Option α :=
  (m.find? (fun kv => kv.1 == k)).map (fun kv => kv.2)

/-- State of the best/worst scan: `bestCallId`, `worstCallId`, `bestScore`,
`worstScore`. -/
structure BestWorst where
  bestCallId : String
  worstCallId : String
  bestScore : ℚ
  worstScore : ℚ
deriving DecidableEq, Repr

/-- The `for (const analysis of analyses)` scan with `bestScore = 0`,
`worstScore = 11` and strict comparisons. -/
def bestWorst (analyses : List CallAnalysis) : BestWorst :=
  analyses.foldl
    (fun s a =>
      let s := if a.overall_score > s.bestScore then
          { s with bestScore := a.overall_score, bestCallId := a.call_id } else s
      if a.overall_score < s.worstScore then
        { s with worstScore := a.overall_score, worstCallId := a.call_id } else s)
    ⟨"", "", 0, 11⟩

/-- Prior-week key resolution: `params.weekNumber === 1 ? { week: 52,
year: params.year - 1 } : { week: params.weekNumber - 1, year: params.year }`. -/
def prevWeekOf (weekNumber year : ℤ) : ℤ × ℤ :=
  if weekNumber = 1 then (52, year - 1) else (weekNumber - 1, year)

/-- The comparison loop: when no prior report was found the `comparison`
object stays empty; otherwise each key of the current `avgScores` whose
value in the prior `avg_scores` is not `undefined` gets
`Math.round((avgScores[key] - prevScores[key]) * 10) / 10`. -/
def compareScores (avg : List (String × ℚ)) (prevScores : Option (List (String × ℚ))) :
    List (String × ℚ) :=
  match prevScores with
  | none => []
  | some prev =>
    avg.filterMap (fun kv =>
      match jlookup kv.1 prev with
      | some p => some (kv.1, round1 (kv.2 - p))
      | none => none)

/-- A row of `coaching_items` (the `CoachingItem` interface of `types.ts`). -/
structure CoachingItem where
  id : String
  call_analysis_id : String
  sdr_id : String
  company_id : String
  dimension : String
  action_item : String
  status : String
deriving DecidableEq, Repr

/-- First-occurrence deduplication with an accumulator of already-seen
keys; `firstDedup` below models `[...new Set(xs)]`. -/
def firstDedupAux : List String → List String → List String
  | [], _ => []
  | a :: l, seen =>
    if a ∈ seen then firstDedupAux l seen else a :: firstDedupAux l (a :: seen)

/-- JS `[...new Set(xs)]`: distinct elements in first-occurrence order. -/
def firstDedup (l : List String) : List String := firstDedupAux l []

/-- One value of the `coachingImpact` object:
`{ coached: true, delta, improved: delta > 0 }`. -/
structure ImpactEntry where
  coached : Bool
  delta : ℚ
  improved : Bool
deriving DecidableEq, Repr

/-- The coaching-impact loop: deduplicate the coached dimensions, then for
each one whose delta in `comparison` is not `undefined` emit an entry. -/
def coachingImpactOf (items : List CoachingItem) (comparison : List (String × ℚ)) :
    List (String × ImpactEntry) :=
  (firstDedup (items.map (fun i => i.dimension))).filterMap (fun dim =>
    match jlookup dim comparison with
    | some delta => some (dim, ⟨true, delta, decide (delta > 0)⟩)
    | none => none)

/-- JS string rendering of the tenth-precision numbers the summary
interpolates: an integer prints without a decimal point, otherwise one
decimal digit is printed. -/
def tenthStr (x : ℚ) : String :=
  if x.den = 1 then toString x.num
  else
    let tenx : ℤ := (x * 10).num
    (if tenx < 0 then "-" else "") ++
      toString (tenx.natAbs / 10) ++ "." ++ toString (tenx.natAbs % 10)

/-- The summary's direction glyph `comparison.overall > 0 ? up :
comparison.overall < 0 ? down : flat`; an undefined `overall` compares
false both times and falls through to flat, as in JS. -/
def wowArrow (comparison : List (String × ℚ)) : String :=
  match jlookup "overall" comparison with
  | some d => if d > 0 then "↑" else if d < 0 then "↓" else "→"
  | none => "→"

/-- The summary's `comparison.overall || 0`. -/
def overallOrZero (comparison : List (String × ℚ)) : ℚ :=
  match jlookup "overall" comparison with
  | some d => d
  | none => 0

/-- The week-over-week clause of the summary template: appended exactly
when `Object.keys(comparison).length > 0`. -/
def wowClause (comparison : List (String × ℚ)) : String :=
  if comparison.isEmpty then ""
  else
    " Compared to last week: " ++ wowArrow comparison ++ " " ++
      tenthStr (abs (overallOrZero comparison)) ++ " points overall."

/-- Label lookup `DIMENSIONS.find(d => d.key === key)?.label || key`. -/
def dimLabel (key : String) : String :=
  match DIMENSIONS.find? (fun d => d.key == key) with
  | some d => d.label
  | none => key

/-- The `Object.entries(avgScores).filter(([k]) => k !== 'overall')` array
the summary sorts to find the strongest and weakest dimensions. -/
def summaryEntries (analyses : List CallAnalysis) : List (String × ℚ) :=
  (avgScoresOf analyses).filter (fun kv => kv.1 != "overall")

/-- First entry achieving the maximum value: what `[0]` of the stable
descending sort `(a, b) => b - a` returns. -/
def firstMaxBy : List (String × ℚ) → Option (String × ℚ)
  | [] => none
  | kv :: rest => some (rest.foldl (fun acc x => if x.2 > acc.2 then x else acc) kv)

/-- First entry achieving the minimum value: what `[0]` of the stable
ascending sort `(a, b) => a - b` returns. -/
def firstMinBy : List (String × ℚ) → Option (String × ℚ)
  | [] => none
  | kv :: rest => some (rest.foldl (fun acc x => if x.2 < acc.2 then x else acc) kv)

/-- The summary template up to (and including) the "Needs work" sentence. -/
def summaryBase (analyses : List CallAnalysis) : String :=
  let top := (firstMaxBy (summaryEntries analyses)).getD ("", 0)
  let bottom := (firstMinBy (summaryEntries analyses)).getD ("", 0)
  "Analyzed " ++ toString analyses.length ++
    " calls this week with an average score of " ++
    tenthStr (overallAvg analyses) ++ "/10. Strongest area: " ++
    dimLabel top.1 ++ " (" ++ tenthStr top.2 ++ "). Needs work: " ++
    dimLabel bottom.1 ++ " (" ++ tenthStr bottom.2 ++ ")."

/-- The full generated summary string. -/
def summaryText (analyses : List CallAnalysis) (comparison : List (String × ℚ)) :
    String :=
  summaryBase analyses ++ wowClause comparison

/-- A stored row of `weekly_reports` (DB-generated `id` and `created_at`
omitted; they carry no engine content). -/
structure StoredReport where
  company_id : String
  sdr_id : String
  week_number : ℤ
  year : ℤ
  calls_analyzed : ℕ
  avg_scores : List (String × ℚ)
  best_call_id : Option String
  worst_call_id : Option String
  summary : String
  comparison_with_previous : List (String × ℚ)
  coaching_impact : List (String × ImpactEntry)
deriving DecidableEq, Repr

/-- The natural key `(sdr_id, week_number, year)` of `weekly_reports`
(its `unique(sdr_id, week_number, year)` constraint). -/
def sameKey (a b : StoredReport) : Bool :=
  a.sdr_id == b.sdr_id && a.week_number == b.week_number && a.year == b.year

/-- `upsert(..., { onConflict: 'sdr_id,week_number,year' })`: replace any
row with the same natural key, insert otherwise. -/
def upsertReport (r : StoredReport) (store : List StoredReport) : List StoredReport :=
  r :: store.filter (fun s => !(sameKey s r))

/-- The prior-report read `.eq(sdr).eq(week).eq(year).single()`: `.single()`
yields data exactly when one row matches (the code discards its error and
sees `null` otherwise). -/
def findReportUnique (store : List StoredReport) (sdrId : String) (week year : ℤ) :
    Option StoredReport :=
  match store.filter (fun s =>
      s.sdr_id == sdrId && s.week_number == week && s.year == year) with
  | [r] => some r
  | _ => none

/-- A row of `calls` restricted to the columns the report query touches. -/
structure Call where
  id : String
  company_id : String
  sdr_id : String
  week_number : ℤ
  year : ℤ
  status : String
deriving DecidableEq, Repr

/-- The read-only source data of one aggregation run: the `calls`,
`call_analyses` and `coaching_items` tables. -/
structure Env where
  calls : List Call
  callAnalyses : List CallAnalysis
  coachingItems : List CoachingItem
deriving Repr

/-- The parameters of `generateWeeklyReport`. -/
structure Params where
  companyId : String
  sdrId : String
  weekNumber : ℤ
  year : ℤ
deriving DecidableEq, Repr

/-- The `calls` query: matching company, SDR, week, year and
`status = 'completed'`, keeping only the ids. -/
def completedCallIds (env : Env) (p : Params) : List String :=
  (env.calls.filter (fun c =>
    c.company_id == p.companyId && c.sdr_id == p.sdrId &&
    c.week_number == p.weekNumber && c.year == p.year &&
    c.status == "completed")).map (fun c => c.id)

/-- The `call_analyses` query `.in('call_id', callIds)`, only issued when
`callIds` is non-empty (the code leaves `analyses = []` otherwise). -/
def selectedAnalyses (env : Env) (p : Params) : List CallAnalysis :=
  let callIds := completedCallIds env p
  if callIds.isEmpty then []
  else env.callAnalyses.filter (fun a => callIds.contains a.call_id)

/-- The `coaching_items` query `.eq('sdr_id', ...).eq('company_id', ...)`:
all-time, no date filter, statuses fetched but never consulted. -/
def sdrCoachingItems (env : Env) (p : Params) : List CoachingItem :=
  env.coachingItems.filter (fun i =>
    i.sdr_id == p.sdrId && i.company_id == p.companyId)

/-- The report value `generateWeeklyReport` builds and upserts once the
selected analysis set is known to be non-empty. -/
def buildReport (env : Env) (store : List StoredReport) (p : Params) : StoredReport :=
  let analyses := selectedAnalyses env p
  let avg := avgScoresOf analyses
  let bw := bestWorst analyses
  let prev := prevWeekOf p.weekNumber p.year
  let prevReport := findReportUnique store p.sdrId prev.1 prev.2
  let comparison := compareScores avg (prevReport.map (fun r => r.avg_scores))
  let impact := coachingImpactOf (sdrCoachingItems env p) comparison
  { company_id := p.companyId
    sdr_id := p.sdrId
    week_number := p.weekNumber
    year := p.year
    calls_analyzed := analyses.length
    avg_scores := avg
    best_call_id := if bw.bestCallId = "" then none else some bw.bestCallId
    worst_call_id := if bw.worstCallId = "" then none else some bw.worstCallId
    summary := summaryText analyses comparison
    comparison_with_previous := comparison
    coaching_impact := impact }

/-- `generateWeeklyReport`: throws (`.error`) when no analyzed calls were
found, otherwise returns the upserted report together with the new state
of the `weekly_reports` table. -/
def generateWeeklyReport (env : Env) (store : List StoredReport) (p : Params) :
    Except String (StoredReport × List StoredReport) :=
  if (selectedAnalyses env p).isEmpty then
    .error "No analyzed calls found for this week"
  else
    let r := buildReport env store p
    .ok (r, upsertReport r store)

/-- The `ORDER BY year DESC, week_number DESC` relation of the trend
query: `a` sorts no later than `b`. -/
def trendGe (a b : StoredReport) : Prop :=
  b.year < a.year ∨ (a.year = b.year ∧ b.week_number ≤ a.week_number)

instance : DecidableRel trendGe := fun a b =>
  decidable_of_iff (b.year < a.year ∨ (a.year = b.year ∧ b.week_number ≤ a.week_number))
    Iff.rfl

instance : IsTotal StoredReport trendGe :=
  ⟨fun a b => by unfold trendGe; omega⟩

instance : IsTrans StoredReport trendGe :=
  ⟨fun a b c hab hbc => by
    unfold trendGe at hab hbc ⊢
    omega⟩

/-- Chronological order on stored reports: `a` is no later than `b` by
`(year, week_number)`. -/
def chronLe (a b : StoredReport) : Prop :=
  a.year < b.year ∨ (a.year = b.year ∧ a.week_number ≤ b.week_number)

/-- `getSDRTrend`: filter the SDR's reports, order by `(year, week_number)`
descending, `limit(weeks)`, then `.reverse()`. The store's `ORDER BY` is
modelled by sorting with the descending relation. -/
def getSDRTrend (store : List StoredReport) (sdrId : String) (weeks : ℕ := 8) :
    List StoredReport :=
  ((((store.filter (fun s => s.sdr_id == sdrId)).insertionSort trendGe).take
    weeks).reverse)

/-- A `call_analyses` row as the engine actually receives it when a
dimension score column holds SQL `NULL` (a data-integrity violation the
schema normally rules out): the column is present with value `null`. -/
structure RawAnalysis where
  call_id : String
  overall_score : ℚ
  opening_score : Option ℚ
  discovery_score : Option ℚ
  value_prop_score : Option ℚ
  objection_score : Option ℚ
  closing_score : Option ℚ
  tone_score : Option ℚ
deriving DecidableEq, Repr

/-- JS `Number(x)` on a score column: a numeric value passes through and
`Number(null) = 0`. -/
def jsNumber : Option ℚ → ℚ
  | some q => q
  | none => 0

/-- Dynamic score access on a possibly-NULL row, through `Number(...)` as
in the aggregation loop. -/
def rawDimScore (a : RawAnalysis) (dbPrefix : String) : ℚ :=
  if dbPrefix = "opening" then jsNumber a.opening_score
  else if dbPrefix = "discovery" then jsNumber a.discovery_score
  else if dbPrefix = "value_prop" then jsNumber a.value_prop_score
  else if dbPrefix = "objection" then jsNumber a.objection_score
  else if dbPrefix = "closing" then jsNumber a.closing_score
  else jsNumber a.tone_score

/-- Per-dimension average over possibly-NULL rows, exactly as the
aggregation loop computes it. -/
def rawDimAvg (analyses : List RawAnalysis) (dbPrefix : String) : ℚ :=
  round1 ((analyses.map (fun a => rawDimScore a dbPrefix)).sum / (analyses.length : ℚ))

/-- The aggregation step of `generateWeeklyReport` (lines computing
`avgScores` and the `overall` entry) run on possibly-NULL rows: the only
error path is the empty-set check. -/
def rawAggregate (analyses : List RawAnalysis) : Except String (List (String × ℚ)) :=
  if analyses.isEmpty then .error "No analyzed calls found for this week"
  else
    let base := DIMENSIONS.map (fun d => (d.key, rawDimAvg analyses d.dbPrefix))
    .ok (base ++ [("overall", round1 ((base.map Prod.snd).sum / (base.length : ℚ)))])

/-! ## Helper lemmas -/

theorem jlookup_nil {α : Type} (k : String) : jlookup k ([] : List (String × α)) = none :=
  rfl

theorem jlookup_cons {α : Type} (k k' : String) (v : α) (m : List (String × α)) :
    jlookup k ((k', v) :: m) = if k' = k then some v else jlookup k m := by
  by_cases h : k' = k
  · simp [jlookup, List.find?, h]
  · have hb : (k' == k) = false := beq_eq_false_iff_ne.mpr h
    simp [jlookup, List.find?, hb, h]

theorem firstDedupAux_mem (a : String) :
    ∀ (l seen : List String), a ∈ firstDedupAux l seen ↔ (a ∈ l ∧ a ∉ seen) := by
  intro l
  induction l with
  | nil => intro seen; simp [firstDedupAux]
  | cons b l ih =>
    intro seen
    by_cases hb : b ∈ seen
    · rw [firstDedupAux, if_pos hb, ih]
      simp only [List.mem_cons]
      constructor
      · rintro ⟨h1, h2⟩
        exact ⟨Or.inr h1, h2⟩
      · rintro ⟨h1 | h1, h2⟩
        · exact absurd (h1 ▸ hb) h2
        · exact ⟨h1, h2⟩
    · rw [firstDedupAux, if_neg hb]
      simp only [List.mem_cons, ih]
      constructor
      · rintro (rfl | ⟨h1, h2⟩)
        · exact ⟨Or.inl rfl, hb⟩
        · exact ⟨Or.inr h1, fun hs => h2 (Or.inr hs)⟩
      · rintro ⟨h1 | h1, h2⟩
        · exact Or.inl h1
        · by_cases hab : a = b
          · exact Or.inl hab
          · refine Or.inr ⟨h1, fun hs => ?_⟩
            rcases hs with h | h
            · exact hab h
            · exact h2 h

theorem firstDedupAux_nodup :
    ∀ (l seen : List String), (firstDedupAux l seen).Nodup := by
  intro l
  induction l with
  | nil => intro seen; simp [firstDedupAux]
  | cons b l ih =>
    intro seen
    by_cases hb : b ∈ seen
    · rw [firstDedupAux, if_pos hb]
      exact ih seen
    · rw [firstDedupAux, if_neg hb]
      refine List.nodup_cons.mpr ⟨?_, ih (b :: seen)⟩
      rw [firstDedupAux_mem]
      simp

theorem firstDedup_mem (a : String) (l : List String) :
    a ∈ firstDedup l ↔ a ∈ l := by
  rw [firstDedup, firstDedupAux_mem]
  simp

theorem firstDedup_nodup (l : List String) : (firstDedup l).Nodup :=
  firstDedupAux_nodup l []

theorem jlookup_filterMap {α : Type} (g : String → Option α) :
    ∀ ds : List String, ds.Nodup → ∀ k : String,
      jlookup k (ds.filterMap (fun d => (g d).map (fun v => (d, v)))) =
        if k ∈ ds then g k else none := by
  intro ds
  induction ds with
  | nil => intro _ k; simp [jlookup]
  | cons d ds ih =>
    intro hnd k
    rw [List.nodup_cons] at hnd
    obtain ⟨hd, hnd⟩ := hnd
    rw [List.filterMap_cons]
    cases hg : g d with
    | none =>
      simp only [Option.map_none']
      rw [ih hnd k]
      by_cases hk : k = d
      · subst hk
        simp [hd, hg]
      · simp [hk]
    | some v =>
      simp only [Option.map_some']
      rw [jlookup_cons]
      by_cases hk : k = d
      · subst hk
        simp [hg]
      · rw [if_neg (fun h => hk h.symm), ih hnd k]
        simp [hk]

theorem compareScores_none (avg : List (String × ℚ)) : compareScores avg none = [] :=
  rfl

theorem jlookup_compareScores_some (prev : List (String × ℚ)) (k : String) (pv : ℚ)
    (hp : jlookup k prev = some pv) :
    ∀ (avg : List (String × ℚ)) (c : ℚ), jlookup k avg = some c →
      jlookup k (compareScores avg (some prev)) = some (round1 (c - pv)) := by
  intro avg
  induction avg with
  | nil => intro c hc; simp [jlookup] at hc
  | cons kv rest ih =>
    obtain ⟨k', v⟩ := kv
    intro c hc
    rw [jlookup_cons] at hc
    rw [compareScores, List.filterMap_cons]
    by_cases hk : k' = k
    · subst hk
      rw [if_pos rfl] at hc
      injection hc with hc
      subst hc
      simp only [hp]
      rw [jlookup_cons, if_pos rfl]
    · rw [if_neg hk] at hc
      have tail : jlookup k (compareScores rest (some prev)) = some (round1 (c - pv)) :=
        ih c hc
      rw [compareScores] at tail
      cases hkp : jlookup k' prev with
      | none => simpa [hkp] using tail
      | some p =>
        simp only [hkp]
        rw [jlookup_cons, if_neg hk]
        exact tail

theorem jlookup_compareScores_none (prev : List (String × ℚ)) (k : String)
    (hp : jlookup k prev = none) :
    ∀ avg : List (String × ℚ), jlookup k (compareScores avg (some prev)) = none := by
  intro avg
  induction avg with
  | nil => simp [compareScores, jlookup]
  | cons kv rest ih =>
    obtain ⟨k', v⟩ := kv
    rw [compareScores, List.filterMap_cons]
    rw [compareScores] at ih
    by_cases hk : k' = k
    · subst hk
      simp only [hp]
      exact ih
    · cases hkp : jlookup k' prev with
      | none => simpa [hkp] using ih
      | some p =>
        simp only [hkp]
        rw [jlookup_cons, if_neg hk]
        exact ih

/-! ## Claims -/

/-- C3: the comparison step returns the empty mapping when no prior report
exists (not an error); otherwise every key of the current averages that
also exists in the prior averages gets delta `round1(current - prior)`,
and keys absent from the prior are omitted, not zero-filled. -/
theorem claim3_comparison_semantics :
    (∀ avg : List (String × ℚ), compareScores avg none = []) ∧
    (∀ (avg prev : List (String × ℚ)) (k : String) (c pv : ℚ),
      jlookup k avg = some c → jlookup k prev = some pv →
      jlookup k (compareScores avg (some prev)) = some (round1 (c - pv))) ∧
    (∀ (avg prev : List (String × ℚ)) (k : String),
      jlookup k prev = none → jlookup k (compareScores avg (some prev)) = none) :=
  ⟨compareScores_none,
   fun avg prev k c pv hc hp => jlookup_compareScores_some prev k pv hp avg c hc,
   fun avg prev k hp => jlookup_compareScores_none prev k hp avg⟩

/-- C4: the coaching-impact mapping has an entry exactly for dimensions
appearing in some historical coaching item (status ignored: the result
depends on the items only through their dimension list) that also have a
delta in the comparison mapping; the entry is
`{coached := true, delta, improved := delta > 0}` with strict inequality,
so a zero delta is not improved, and coached dimensions without a delta
are omitted. -/
theorem claim4_coaching_impact_entries (items : List CoachingItem)
    (comparison : List (String × ℚ)) (dim : String) :
    jlookup dim (coachingImpactOf items comparison) =
      (if dim ∈ items.map (fun i => i.dimension) then
        (jlookup dim comparison).map
          (fun delta => (⟨true, delta, decide (delta > 0)⟩ : ImpactEntry))
      else none) := by
  have hfun : (fun dim =>
      match jlookup dim comparison with
      | some delta =>
        some (dim, (⟨true, delta, decide (delta > 0)⟩ : ImpactEntry))
      | none => none) =
      fun d => ((jlookup d comparison).map
        (fun delta => (⟨true, delta, decide (delta > 0)⟩ : ImpactEntry))).map
          (fun v => (d, v)) := by
    funext d
    cases jlookup d comparison <;> rfl
  rw [coachingImpactOf, hfun,
    jlookup_filterMap _ _ (firstDedup_nodup _) dim]
  by_cases hmem : dim ∈ items.map (fun i => i.dimension)
  · rw [if_pos ((firstDedup_mem _ _).mpr hmem), if_pos hmem]
  · rw [if_neg (fun hc => hmem ((firstDedup_mem _ _).mp hc)), if_neg hmem]

/-- C5: an empty selected analysis set makes `generateWeeklyReport` fail
with the no-data error; it never returns or stores a zero-filled rollup. -/
theorem claim5_empty_window_raises (env : Env) (store : List StoredReport)
    (p : Params) (h : selectedAnalyses env p = []) :
    generateWeeklyReport env store p =
      .error "No analyzed calls found for this week" := by
  rw [generateWeeklyReport, h]
  rfl

/-- Witness for C5 at a concrete empty environment. -/
theorem claim5_empty_window_raises_witness :
    selectedAnalyses ⟨[], [], []⟩ ⟨"co", "sdr", 5, 2024⟩ = [] ∧
    generateWeeklyReport ⟨[], [], []⟩ [] ⟨"co", "sdr", 5, 2024⟩ =
      .error "No analyzed calls found for this week" :=
  ⟨by decide, claim5_empty_window_raises ⟨[], [], []⟩ [] ⟨"co", "sdr", 5, 2024⟩ (by decide)⟩

/-- C6: for requested weeks in [1, 52], the prior-week key is
`(week - 1, year)` for week > 1 and `(52, year - 1)` for week 1 — never
`(0, year)` and never `(53, year)`. -/
theorem claim6_prior_week_resolution (w y : ℤ) (h1 : 1 ≤ w) (h2 : w ≤ 52) :
    prevWeekOf w y = (if w = 1 then (52, y - 1) else (w - 1, y)) ∧
    prevWeekOf w y ≠ (0, y) ∧ prevWeekOf w y ≠ (53, y) := by
  refine ⟨rfl, ?_, ?_⟩ <;>
    · rw [prevWeekOf]
      by_cases hw : w = 1 <;> simp [hw, Prod.ext_iff] <;> omega

/-- Witness for C6 at week 1 of 2024. -/
theorem claim6_prior_week_resolution_witness :
    (1 : ℤ) ≤ 1 ∧ (1 : ℤ) ≤ 52 ∧
    (prevWeekOf 1 2024 = (if (1 : ℤ) = 1 then ((52 : ℤ), (2024 : ℤ) - 1)
        else (1 - 1, 2024)) ∧
      prevWeekOf 1 2024 ≠ (0, 2024) ∧ prevWeekOf 1 2024 ≠ (53, 2024)) :=
  ⟨le_refl 1, by norm_num, claim6_prior_week_resolution 1 2024 (le_refl 1) (by norm_num)⟩

/-- A concrete `call_analyses` row with the given scores and empty text
fields, for concrete scenarios. -/
def mkAnalysis (cid : String)
    (overall opening discovery valueProp objection closing tone : ℚ) :
    CallAnalysis where
  id := cid ++ "-analysis"
  call_id := cid
  overall_score := overall
  opening_score := opening
  opening_justification := ""
  opening_quotes := []
  discovery_score := discovery
  discovery_justification := ""
  discovery_quotes := []
  value_prop_score := valueProp
  value_prop_justification := ""
  value_prop_quotes := []
  objection_score := objection
  objection_justification := ""
  objection_quotes := []
  closing_score := closing
  closing_justification := ""
  closing_quotes := []
  tone_score := tone
  tone_justification := ""
  tone_quotes := []
  strengths := []
  weaknesses := []
  summary := ""
  created_at := ""

/-- C1: for every non-empty analysis set, the rollup's `overall` entry is
the mean of the six just-computed (already rounded) per-dimension
averages, rounded to one decimal place; the second conjunct exhibits a
set on which this differs from the mean of the calls' stored
`overall_score` values, so `overall` is not that naive average. -/
theorem claim1_overall_mean_of_dimension_averages (analyses : List CallAnalysis)
    (h : analyses ≠ []) :
    jlookup "overall" (avgScoresOf analyses) =
      some (round1
        ((DIMENSIONS.map (fun d => dimAvg analyses d.dbPrefix)).sum / 6)) ∧
    jlookup "overall" (avgScoresOf
        [mkAnalysis "c1" 10 5 5 5 5 5 5, mkAnalysis "c2" 2 5 5 5 5 5 5]) ≠
      some (round1
        ((([mkAnalysis "c1" 10 5 5 5 5 5 5, mkAnalysis "c2" 2 5 5 5 5 5 5].map
          (fun a => a.overall_score)).sum) / 2)) := by
  constructor
  · simp [avgScoresOf, baseAvgScores, overallAvg, DIMENSIONS, jlookup_cons]
  · simp [avgScoresOf, baseAvgScores, overallAvg, DIMENSIONS, jlookup_cons,
      dimAvg, dimScore, mkAnalysis]
    norm_num [round1, jsRound]

/-- Witness for C1 at a concrete one-element analysis set. -/
theorem claim1_overall_mean_of_dimension_averages_witness :
    ([mkAnalysis "w1" 7 1 2 3 4 5 6] : List CallAnalysis) ≠ [] ∧
    (jlookup "overall" (avgScoresOf [mkAnalysis "w1" 7 1 2 3 4 5 6]) =
      some (round1
        ((DIMENSIONS.map
          (fun d => dimAvg [mkAnalysis "w1" 7 1 2 3 4 5 6] d.dbPrefix)).sum / 6)) ∧
    jlookup "overall" (avgScoresOf
        [mkAnalysis "c1" 10 5 5 5 5 5 5, mkAnalysis "c2" 2 5 5 5 5 5 5]) ≠
      some (round1
        ((([mkAnalysis "c1" 10 5 5 5 5 5 5, mkAnalysis "c2" 2 5 5 5 5 5 5].map
          (fun a => a.overall_score)).sum) / 2))) :=
  ⟨by decide, claim1_overall_mean_of_dimension_averages _ (by decide)⟩

/-- C8: for every non-empty analysis set and each canonical dimension, the
stored average is the arithmetic mean of that dimension's scores rounded
to one decimal place half-up; in particular opening scores 3, 5, 9 yield
a stored opening average of 5.7. -/
theorem claim8_dimension_average_rounding (analyses : List CallAnalysis)
    (h : analyses ≠ []) (d : Dimension) (hd : d ∈ DIMENSIONS) :
    jlookup d.key (avgScoresOf analyses) =
      some (round1 ((analyses.map (fun a => dimScore a d.dbPrefix)).sum /
        (analyses.length : ℚ))) ∧
    jlookup "opening" (avgScoresOf
        [mkAnalysis "c3" 4 3 5 5 5 5 5, mkAnalysis "c4" 6 5 5 5 5 5 5,
         mkAnalysis "c5" 8 9 5 5 5 5 5]) = some (57 / 10) := by
  refine ⟨?_, ?_⟩
  · simp only [DIMENSIONS, List.mem_cons, List.not_mem_nil, or_false] at hd
    rcases hd with rfl | rfl | rfl | rfl | rfl | rfl <;>
      simp [avgScoresOf, baseAvgScores, DIMENSIONS, jlookup_cons, dimAvg]
  · simp [avgScoresOf, baseAvgScores, DIMENSIONS, jlookup_cons, dimAvg,
      dimScore, mkAnalysis]
    norm_num [round1, jsRound]

/-- Witness for C8 at the spec's three-call scenario and the opening
dimension. -/
theorem claim8_dimension_average_rounding_witness :
    ([mkAnalysis "c3" 4 3 5 5 5 5 5, mkAnalysis "c4" 6 5 5 5 5 5 5,
      mkAnalysis "c5" 8 9 5 5 5 5 5] : List CallAnalysis) ≠ [] ∧
    (⟨"opening", "Opening & Hook", "opening"⟩ : Dimension) ∈ DIMENSIONS ∧
    (jlookup (Dimension.key ⟨"opening", "Opening & Hook", "opening"⟩)
        (avgScoresOf [mkAnalysis "c3" 4 3 5 5 5 5 5, mkAnalysis "c4" 6 5 5 5 5 5 5,
          mkAnalysis "c5" 8 9 5 5 5 5 5]) =
      some (round1
        (([mkAnalysis "c3" 4 3 5 5 5 5 5, mkAnalysis "c4" 6 5 5 5 5 5 5,
           mkAnalysis "c5" 8 9 5 5 5 5 5].map
          (fun a => dimScore a
            (Dimension.dbPrefix ⟨"opening", "Opening & Hook", "opening"⟩))).sum /
        (([mkAnalysis "c3" 4 3 5 5 5 5 5, mkAnalysis "c4" 6 5 5 5 5 5 5,
           mkAnalysis "c5" 8 9 5 5 5 5 5] : List CallAnalysis).length : ℚ))) ∧
    jlookup "opening" (avgScoresOf
        [mkAnalysis "c3" 4 3 5 5 5 5 5, mkAnalysis "c4" 6 5 5 5 5 5 5,
         mkAnalysis "c5" 8 9 5 5 5 5 5]) = some (57 / 10)) :=
  ⟨by decide, by decide, claim8_dimension_average_rounding _ (by decide) _ (by decide)⟩

theorem buildReport_week_number (env : Env) (store : List StoredReport) (p : Params) :
    (buildReport env store p).week_number = p.weekNumber := rfl

theorem prevWeek_fst_ne (w y : ℤ) : (prevWeekOf w y).1 ≠ w := by
  rw [prevWeekOf]
  by_cases hw : w = 1
  · simp [hw]
  · simp only [hw, if_false]
    omega

theorem sameKey_self (r : StoredReport) : sameKey r r = true := by
  simp [sameKey]

theorem findReportUnique_upsert (r : StoredReport) (store : List StoredReport)
    (sdrId : String) (week year : ℤ) (hw : week ≠ r.week_number) :
    findReportUnique (upsertReport r store) sdrId week year =
      findReportUnique store sdrId week year := by
  unfold findReportUnique upsertReport
  have hpr : (r.sdr_id == sdrId && r.week_number == week && r.year == year) = false := by
    have : (r.week_number == week) = false :=
      beq_eq_false_iff_ne.mpr (fun hh => hw hh.symm)
    simp [this]
  rw [List.filter_cons_of_neg (by simp [hpr]), List.filter_filter]
  have hfil : ∀ s ∈ store,
      ((s.sdr_id == sdrId && s.week_number == week && s.year == year) &&
        !sameKey s r) =
      (s.sdr_id == sdrId && s.week_number == week && s.year == year) := by
    intro s _
    cases hq : sameKey s r with
    | false => simp
    | true =>
      have hw2 : s.week_number = r.week_number := by
        rw [sameKey] at hq
        simp only [Bool.and_eq_true, beq_iff_eq] at hq
        exact hq.1.2
      have hpw : (s.week_number == week) = false :=
        beq_eq_false_iff_ne.mpr (by rw [hw2]; exact fun hh => hw hh.symm)
      simp [hq, hpw]
  rw [List.filter_congr hfil]

theorem upsertReport_idem (r : StoredReport) (store : List StoredReport) :
    upsertReport r (upsertReport r store) = upsertReport r store := by
  unfold upsertReport
  rw [List.filter_cons_of_neg (by simp [sameKey_self]), List.filter_filter]
  have hfil : ∀ s ∈ store, (!sameKey s r && !sameKey s r) = !sameKey s r := by
    intro s _
    exact Bool.and_self _
  rw [List.filter_congr hfil]

theorem upsertReport_key_count (r : StoredReport) (store : List StoredReport) :
    ((upsertReport r store).filter (fun s => sameKey s r)).length = 1 := by
  unfold upsertReport
  rw [List.filter_cons_of_pos (p := fun s => sameKey s r) (sameKey_self r),
    List.filter_filter]
  simp

/-- C2: with unchanged source data, running the full pipeline twice for the
same `(sdr, week, year)` key succeeds both times with the same report,
leaves the stored table identical after both runs, and the table holds
exactly one report for that key (the upsert overwrites, never
duplicates). -/
theorem claim2_pipeline_idempotent (env : Env) (store : List StoredReport)
    (p : Params) (h : selectedAnalyses env p ≠ []) :
    generateWeeklyReport env store p =
      .ok (buildReport env store p, upsertReport (buildReport env store p) store) ∧
    generateWeeklyReport env (upsertReport (buildReport env store p) store) p =
      .ok (buildReport env store p, upsertReport (buildReport env store p) store) ∧
    ((upsertReport (buildReport env store p) store).filter
      (fun s => sameKey s (buildReport env store p))).length = 1 := by
  have hne : (selectedAnalyses env p).isEmpty = false := by
    cases hsel : selectedAnalyses env p with
    | nil => exact absurd hsel h
    | cons a l => rfl
  have hb : buildReport env (upsertReport (buildReport env store p) store) p =
      buildReport env store p := by
    conv_lhs => rw [buildReport]
    conv_rhs => rw [buildReport]
    rw [findReportUnique_upsert _ _ _ _ _
      (by rw [buildReport_week_number]; exact prevWeek_fst_ne p.weekNumber p.year)]
  refine ⟨?_, ?_, upsertReport_key_count _ _⟩
  · rw [generateWeeklyReport, hne]
    rfl
  · rw [generateWeeklyReport, hne]
    simp only [Bool.false_eq_true, if_false]
    rw [hb, upsertReport_idem]

/-- A one-call environment for the C2 witness. -/
def env2 : Env :=
  ⟨[⟨"call1", "co", "sdr", 5, 2024, "completed"⟩],
   [mkAnalysis "call1" 7 1 2 3 4 5 6], []⟩

/-- The parameters of the C2 witness. -/
def params2 : Params := ⟨"co", "sdr", 5, 2024⟩

/-- Witness for C2 at a concrete environment with one completed call. -/
theorem claim2_pipeline_idempotent_witness :
    selectedAnalyses env2 params2 ≠ [] ∧
    (generateWeeklyReport env2 [] params2 =
      .ok (buildReport env2 [] params2,
        upsertReport (buildReport env2 [] params2) []) ∧
    generateWeeklyReport env2 (upsertReport (buildReport env2 [] params2) []) params2 =
      .ok (buildReport env2 [] params2,
        upsertReport (buildReport env2 [] params2) []) ∧
    ((upsertReport (buildReport env2 [] params2) []).filter
      (fun s => sameKey s (buildReport env2 [] params2))).length = 1) :=
  ⟨by decide, claim2_pipeline_idempotent env2 [] params2 (by decide)⟩

theorem wowClause_ne_empty (comparison : List (String × ℚ)) (h : comparison ≠ []) :
    wowClause comparison ≠ "" := by
  have hne : comparison.isEmpty = false := by
    cases comparison with
    | nil => exact absurd rfl h
    | cons a l => rfl
  rw [wowClause, hne]
  simp only [Bool.false_eq_true, if_false]
  intro hc
  have hlen := congrArg String.length hc
  simp only [String.length_append] at hlen
  have h1 : (" Compared to last week: ").length = 24 := rfl
  have h2 : (" ").length = 1 := rfl
  have h3 : (" points overall.").length = 16 := rfl
  have h0 : ("").length = 0 := rfl
  rw [h1, h2, h3, h0] at hlen
  omega

/-- C7 (amended): the summary is the base template plus the
week-over-week clause, and the clause is appended exactly when the
comparison mapping is non-empty (when every prior report was produced by
this engine the non-empty comparison always contains `overall`, so this
coincides with the claim's condition); the directional glyph is up for a
strictly positive overall delta, down for a strictly negative one, and
flat for a zero or absent overall delta. -/
theorem claim7_wow_clause_amended :
    (∀ (analyses : List CallAnalysis) (comparison : List (String × ℚ)),
      summaryText analyses comparison = summaryBase analyses ++ wowClause comparison) ∧
    (∀ comparison : List (String × ℚ), wowClause comparison ≠ "" ↔ comparison ≠ []) ∧
    (∀ (comparison : List (String × ℚ)) (d : ℚ),
      jlookup "overall" comparison = some d →
      wowArrow comparison = (if d > 0 then "↑" else if d < 0 then "↓" else "→")) ∧
    (∀ comparison : List (String × ℚ), jlookup "overall" comparison = none →
      wowArrow comparison = "→") := by
  refine ⟨fun _ _ => rfl, ?_, ?_, ?_⟩
  · intro comparison
    constructor
    · intro hne hc
      subst hc
      exact hne rfl
    · exact wowClause_ne_empty comparison
  · intro comparison d hd
    rw [wowArrow, hd]
  · intro comparison hd
    rw [wowArrow, hd]

/-- The comparison mapping produced for one current call against a stored
prior report whose `avg_scores` holds only an `opening` key (the
`weekly_reports.avg_scores` column is free-form jsonb, defaulting to
an empty object). -/
def cmp7 : List (String × ℚ) :=
  compareScores (avgScoresOf [mkAnalysis "c7" 7 5 5 5 5 5 5]) (some [("opening", 5)])

/-- C7 counterexample: `cmp7` has no `overall` key, yet the summary
appends the week-over-week clause (the code keys the clause on the
comparison being non-empty, not on `overall` being defined), so the
claimed "if and only if" fails at this input. -/
theorem claim7_counterexample :
    jlookup "overall" cmp7 = none ∧ wowClause cmp7 ≠ "" := by
  have hc : cmp7 = [("opening", 0)] := by
    simp [cmp7, compareScores, avgScoresOf, baseAvgScores, overallAvg, DIMENSIONS,
      dimAvg, dimScore, mkAnalysis, jlookup_cons, jlookup_nil]
    norm_num [round1, jsRound]
  rw [hc]
  refine ⟨by simp [jlookup_cons, jlookup_nil], wowClause_ne_empty _ (by simp)⟩

/-- A possibly-NULL analysis row with every score present. -/
def raw9a : RawAnalysis := ⟨"c9a", 4, some 4, some 4, some 4, some 4, some 4, some 4⟩

/-- A possibly-NULL analysis row whose opening score column is NULL. -/
def raw9b : RawAnalysis := ⟨"c9b", 4, none, some 4, some 4, some 4, some 4, some 4⟩

/-- C9: the spec requires a loud failure when a selected analysis misses a
dimension score, but the aggregation code raises nothing: JS coerces the
NULL score with `Number(null) = 0` and the run succeeds, storing a
silently corrupted opening average of 2.0 (the mean of 4 and the
defaulted 0) instead of raising an error. -/
theorem claim9_missing_score_not_loud :
    rawAggregate [raw9a, raw9b] =
      .ok [("opening", 2), ("discovery", 4), ("value_prop", 4), ("objection", 4),
           ("closing", 4), ("tone", 4), ("overall", 37 / 10)] := by
  simp [rawAggregate, rawDimAvg, rawDimScore, jsNumber, raw9a, raw9b, DIMENSIONS]
  norm_num [round1, jsRound]

theorem chronLe_of_trendGe (a b : StoredReport) (h : trendGe a b) : chronLe b a := by
  rw [trendGe] at h
  rw [chronLe]
  omega

/-- C10: `getSDRTrend` returns at most `weeks` reports, all drawn from the
SDR's stored reports, sorted in chronological ascending order by
`(year, week_number)`, and every stored report of that SDR left out is
chronologically no later than every returned one (the returned reports
are the most recent ones). -/
theorem claim10_trend_query (store : List StoredReport) (sdrId : String) (weeks : ℕ) :
    (getSDRTrend store sdrId weeks).length ≤ weeks ∧
    (getSDRTrend store sdrId weeks).Pairwise chronLe ∧
    (∀ a ∈ getSDRTrend store sdrId weeks,
      a ∈ store.filter (fun s => s.sdr_id == sdrId)) ∧
    (∀ b ∈ store.filter (fun s => s.sdr_id == sdrId),
      b ∉ getSDRTrend store sdrId weeks →
      ∀ a ∈ getSDRTrend store sdrId weeks, chronLe b a) := by
  have hsorted : List.Sorted trendGe
      ((store.filter (fun s => s.sdr_id == sdrId)).insertionSort trendGe) :=
    List.sorted_insertionSort trendGe _
  have hperm :
      ((store.filter (fun s => s.sdr_id == sdrId)).insertionSort trendGe).Perm
        (store.filter (fun s => s.sdr_id == sdrId)) :=
    List.perm_insertionSort trendGe _
  have hres : getSDRTrend store sdrId weeks =
      (((store.filter (fun s => s.sdr_id == sdrId)).insertionSort trendGe).take
        weeks).reverse := rfl
  refine ⟨?_, ?_, ?_, ?_⟩
  · rw [hres, List.length_reverse, List.length_take]
    exact min_le_left _ _
  · rw [hres, List.pairwise_reverse]
    exact (List.Pairwise.sublist (List.take_sublist _ _) hsorted).imp
      (fun h => chronLe_of_trendGe _ _ h)
  · intro a ha
    rw [hres, List.mem_reverse] at ha
    exact hperm.mem_iff.mp (List.mem_of_mem_take ha)
  · intro b hb hbnot a ha
    rw [hres, List.mem_reverse] at ha hbnot
    have hbs : b ∈ (store.filter (fun s => s.sdr_id == sdrId)).insertionSort trendGe :=
      hperm.mem_iff.mpr hb
    have hsplit : b ∈ ((store.filter (fun s => s.sdr_id == sdrId)).insertionSort
        trendGe).take weeks ++ ((store.filter (fun s => s.sdr_id == sdrId)).insertionSort
        trendGe).drop weeks := by
      rw [List.take_append_drop]
      exact hbs
    rcases List.mem_append.mp hsplit with hcase | hcase
    · exact absurd hcase hbnot
    · exact chronLe_of_trendGe _ _ (hsorted.rel_of_mem_take_of_mem_drop ha hcase)

end CallPulse
